import Mathlib

/-!
Verification of the OpenSoupRating round-state impact engine.

Shallow embedding of `open_soup_rating/components/kill_contrib.py`,
`death_contrib.py`, `apr.py` and `adra.py`.  Python floats are modelled
as rationals (`ℚ`), python ints as `ℤ`, JSON dicts as association lists,
and python exceptions as `Except String` (an `Except.error` marks a code
path where the source raises).  Functions keep the source's names,
camel-cased.
-/

/-- Equality of `Except` results is decidable componentwise (used to
evaluate the engines on concrete inputs). -/
instance instDecEqExcept {ε α : Type} [DecidableEq ε] [DecidableEq α] :
    DecidableEq (Except ε α) := fun a b =>
  match a, b with
  | .ok x, .ok y =>
    if h : x = y then isTrue (by rw [h]) else isFalse (by simp [h])
  | .error e, .error f =>
    if h : e = f then isTrue (by rw [h]) else isFalse (by simp [h])
  | .ok _, .error _ => isFalse (by simp)
  | .error _, .ok _ => isFalse (by simp)

namespace OSR

-- The rational operations are `@[irreducible]` upstream; make them
-- reducible in this file so concrete engine runs can be settled by `decide`.
attribute [local semireducible] Rat.mul Rat.add Rat.sub Rat.inv

/-! ### Python string primitives -/

/-- Python `str.split(sep)` for a single-character separator, on the
character list of the string.  `"1v0".split('v') = ["1","0"]`,
`"v".split('v') = ["",""]`. -/
def pySplit (sep : Char) : List Char → List (List Char)
  | [] => [[]]
  | c :: cs =>
    if c = sep then [] :: pySplit sep cs
    else
      match pySplit sep cs with
      | [] => [[c]]
      | p :: ps => (c :: p) :: ps

/-- Decimal value of a digit character, `none` for a non-digit. -/
def digitVal (c : Char) : Option ℕ :=
  if c.isDigit then some (c.toNat - 48) else none

/-- Digits of a non-empty string read as a natural number; `none`
(python: `ValueError`) otherwise. -/
def digitsToNat (cs : List Char) : Option ℕ :=
  if cs.isEmpty then none
  else cs.foldlM (fun acc c => (digitVal c).map (fun d => acc * 10 + d)) 0

/-- Python `int(s)` on a string: optional leading minus sign followed by
digits; `none` models the `ValueError` raised otherwise. -/
def pyInt : List Char → Option ℤ
  | '-' :: rest => (digitsToNat rest).map (fun n => -(n : ℤ))
  | cs => (digitsToNat cs).map (fun n => (n : ℤ))

/-- Python truthiness of an optional string: `None` and `""` are falsy. -/
def truthyStr : Option String → Bool
  | none => false
  | some s => s ≠ ""

/-! ### Data model

JSON match records, typed.  Optional JSON fields become `Option`;
a field the engine reads with a `.get(…, default)` whose default is the
natural zero value is modelled as a total field. -/

/-- `playerStats[i].economy`: per-round economy record of one player.
`loadoutValue` is read via `.get('loadoutValue', 0)`, `armor` via
`.get('armor', 'None')`; absence is the default value. -/
structure Economy where
  loadoutValue : ℤ
  armor : String
  deriving DecidableEq

/-- One raw kill record inside `playerStats[i].kills`.
`timeSinceRoundStartMillis` is read with default `0`;
`damageType` models `kill.get('finishingDamage', {}).get('damageType')`
(`none` when either key is absent).  The `assistants` list is copied by
`adra._calculate_xvx_impacts` into its events but never read, so it is
not modelled. -/
structure Kill where
  killer : String
  victim : String
  timeSinceRoundStartMillis : ℤ
  damageType : Option String
  deriving DecidableEq

/-- One entry of a round's `playerStats` list. -/
structure PlayerStat where
  puuid : String
  economy : Economy
  kills : List Kill
  deriving DecidableEq

/-- One entry of `match['roundResults']`. -/
structure Round where
  roundNum : ℤ
  winningTeam : Option String
  roundResultCode : Option String
  roundEndReason : Option String
  plantRoundTime : Option ℤ
  defuseRoundTime : Option ℤ
  bombPlanter : Option String
  playerStats : List PlayerStat
  deriving DecidableEq

/-- `player['stats']`: cumulative per-match stats (the fields the
components read, via `.get(…, 0)`). -/
structure Stats where
  roundsPlayed : ℤ
  assists : ℤ
  deriving DecidableEq

/-- One entry of `match['players']`.  `stats` is `player.get('stats')`. -/
structure MatchPlayer where
  puuid : String
  teamId : String
  stats : Option Stats
  deriving DecidableEq

/-- A match record (the fields the engine reads). -/
structure MatchRec where
  players : List MatchPlayer
  roundResults : List Round
  deriving DecidableEq

/-- The `win_probabilities` tables of the XvX data file: four mappings
from `"AvB"` keys to probabilities.  A missing sub-table is the empty
mapping (the source reads each with `.get(name, {})`), and a missing
`win_probabilities` wrapper behaves as all four empty. -/
structure WinProbTables where
  atkSpike : List (String × ℚ)
  atkNoSpike : List (String × ℚ)
  defSpike : List (String × ℚ)
  defNoSpike : List (String × ℚ)
  deriving DecidableEq

/-- `economic_data['economy_categories']`: mapping from
`"{cat} vs {cat}"` to its `win_rate`.  `none` models falsy
`economic_data` or an absent `economy_categories` key. -/
abbrev EconData := Option (List (String × ℚ))

/-- Engine-internal alive counts, the `alive = {'atk': 5, 'def': 5}`
dict.  Counts are integers so that non-negativity is a real claim. -/
structure Alive where
  atk : ℤ
  dfn : ℤ
  deriving DecidableEq

/-- `alive[team]` for a team string produced by `_get_team_from_puuid`
(`"atk"` or `"def"`).  The source indexes a two-key dict; every call
site only passes `"atk"` or `"def"`, so the non-`"atk"` branch is
read as `"def"`. -/
def aliveGet (a : Alive) (team : String) : ℤ :=
  if team = "atk" then a.atk else a.dfn

/-- `alive[team] -= 1`. -/
def aliveDec (a : Alive) (team : String) : Alive :=
  if team = "atk" then { a with atk := a.atk - 1 } else { a with dfn := a.dfn - 1 }

/-- Timeline event built by the engines' collection loops: kill
contribution drops `finishingDamage` (so its `damageType` is always
`none` there), death contribution keeps it. -/
structure KillEvent where
  killer : String
  victim : String
  time : ℤ
  damageType : Option String
  deriving DecidableEq

/-! ### Shared helpers of `kill_contrib.py` / `death_contrib.py` -/

/-- `_get_xvx_key`: the f-string `f"{a}v{b}"`. -/
def getXvxKey (a b : ℤ) : String :=
  toString a ++ "v" ++ toString b

/-- `_get_inverse_xvx_key`: `left, right = xvx_key.split('v')` then
`f"{right}v{left}"`.  The tuple unpacking raises unless the split has
exactly two parts; that raise is the `Except.error`. -/
def getInverseXvxKey (s : String) : Except String String :=
  match pySplit 'v' s.toList with
  | [l, r] => .ok (String.mk (r ++ 'v' :: l))
  | _ => .error "ValueError"

/-- `_get_team_from_puuid`: first roster entry with the puuid whose
`teamId` equals one of the two side labels gives `"atk"`/`"def"`;
otherwise `none` (python `None`). -/
def getTeamFromPuuid (puuid : String) (players : List MatchPlayer)
    (atkTeam defTeam : String) : Option String :=
  match players with
  | [] => none
  | p :: rest =>
    if p.puuid = puuid then
      if p.teamId = atkTeam then some "atk"
      else if p.teamId = defTeam then some "def"
      else getTeamFromPuuid puuid rest atkTeam defTeam
    else getTeamFromPuuid puuid rest atkTeam defTeam

/-- `_get_player_loadout`: loadout value of the first `playerStats`
entry with the puuid, `0` if absent. -/
def getPlayerLoadout (puuid : String) (r : Round) : ℤ :=
  ((r.playerStats.find? (fun ps => ps.puuid = puuid)).map
    (fun ps => ps.economy.loadoutValue)).getD 0

/-- `_get_economy_category`: loadout-value thresholds. -/
def getEconomyCategory (individualLoadout : ℤ) : String :=
  if individualLoadout ≤ 1500 then "Save Round"
  else if individualLoadout ≤ 4000 then "Eco Round"
  else if individualLoadout ≤ 7500 then "Force Buy"
  else if individualLoadout ≤ 10000 then "Anti-Eco"
  else if individualLoadout ≤ 15000 then "Full Buy"
  else "Operator Buy"

/-- `_calculate_economic_modifier`: look up
`"{killer_category} vs {victim_category}"`; found → `2 * (1 - win_rate)`,
otherwise (or with no `economy_categories` table) `1.0`. -/
def calculateEconomicModifier (killerLoadout victimLoadout : ℤ)
    (economicData : EconData) : ℚ :=
  match economicData with
  | none => 1
  | some economyCategories =>
    let matchup := getEconomyCategory killerLoadout ++ " vs " ++
      getEconomyCategory victimLoadout
    match economyCategories.lookup matchup with
    | some winRate => 2 * (1 - winRate)
    | none => 1

/-- `_get_win_probability_killer_perspective`: attacker perspective
reads `atk_spike`/`atk_no_spike` at the key with fallback `0.5`;
defender perspective reads the attacker table at the inverse key and
returns the complement. -/
def getWinProbabilityKillerPerspective (xvxKey : String)
    (spikePlanted : Bool) (winProbabilities : WinProbTables)
    (killerIsAttacker : Bool) : Except String ℚ :=
  if killerIsAttacker then
    if spikePlanted then
      .ok ((winProbabilities.atkSpike.lookup xvxKey).getD (1/2))
    else
      .ok ((winProbabilities.atkNoSpike.lookup xvxKey).getD (1/2))
  else do
    let inverseKey ← getInverseXvxKey xvxKey
    let atkProb :=
      if spikePlanted then
        (winProbabilities.atkSpike.lookup inverseKey).getD (1/2)
      else
        (winProbabilities.atkNoSpike.lookup inverseKey).getD (1/2)
    .ok (1 - atkProb)

/-- `sub` is a leading segment of `s`. -/
def leadsWith (sub s : List Char) : Bool :=
  match sub, s with
  | [], _ => true
  | _ :: _, [] => false
  | a :: as, b :: bs => a = b && leadsWith as bs

/-- `sub` occurs contiguously somewhere in `s`. -/
def hasSubList (sub s : List Char) : Bool :=
  match s with
  | [] => leadsWith sub []
  | _ :: rest => leadsWith sub s || hasSubList sub rest

/-- `'Elimination' in round_end_reason` (python substring test). -/
def strContainsSub (sub s : String) : Bool :=
  hasSubList sub.toList s.toList

/-- The `winner_was_attacker` inference of `_adjust_win_for_outcome`
(kill_contrib.py lines 212–228): `None` unless the spike was planted;
otherwise from `roundEndReason` alone — a reason containing
`Elimination` yields the killer's own side, `Defuse` the defenders,
`Detonate` the attackers; anything else `None`. -/
def winnerWasAttacker (killerIsAttacker : Bool) (roundOutcome : Round) :
    Option Bool :=
  match roundOutcome.plantRoundTime with
  | none => none
  | some _ =>
    let reason := roundOutcome.roundEndReason.getD ""
    if strContainsSub "Elimination" reason then some killerIsAttacker
    else if strContainsSub "Defuse" reason then some false
    else if strContainsSub "Detonate" reason then some true
    else none

/-- `_adjust_win_for_outcome` of `kill_contrib.py` / `death_contrib.py`:
`X v 0` override.  Requires a truthy `winningTeam` AND a present
`plantRoundTime`; the winner's side is then inferred from
`roundEndReason` alone (see `winnerWasAttacker`), never from the
winning team's identity.  Returns `.ok none` for "no adjustment"; the
`Except.error` marks the `int()` / unpacking raise on a key without
exactly two integer parts (unreachable for engine-built keys). -/
def adjustWinForOutcome (xvxKey : String) (killerIsAttacker : Bool)
    (roundOutcome : Round) : Except String (Option ℚ) :=
  if ¬ (xvxKey.toList.contains '0') then .ok none
  else if ¬ truthyStr roundOutcome.winningTeam then .ok none
  else
    match winnerWasAttacker killerIsAttacker roundOutcome with
    | none => .ok none
    | some winnerAtk =>
      match pySplit 'v' xvxKey.toList with
      | [left, right] =>
        match pyInt left, pyInt right with
        | some leftAlive, some rightAlive =>
          if rightAlive = 0 then
            .ok (some (if winnerAtk then (if killerIsAttacker then 1 else 0)
                       else (if killerIsAttacker then 0 else 1)))
          else if leftAlive = 0 then
            .ok (some (if winnerAtk then (if killerIsAttacker then 1 else 0)
                       else (if killerIsAttacker then 0 else 1)))
          else .ok none
        | _, _ => .error "ValueError"
      | _ => .error "ValueError"

/-- Maximum `timeSinceRoundStartMillis` over all kills of a round,
starting from `0` (the `last_kill_time` loop of
`_get_effective_round_end_time`). -/
def maxKillTime (r : Round) : ℤ :=
  r.playerStats.foldl
    (fun acc ps => ps.kills.foldl
      (fun acc2 k => max acc2 k.timeSinceRoundStartMillis) acc) 0

/-- `_get_effective_round_end_time`: Defuse → defuse timestamp;
Elimination → last kill time if positive, else no cutoff;
Detonate → plant time + 45000; other → no cutoff. -/
def getEffectiveRoundEndTime (r : Round) : Option ℤ :=
  if r.roundResultCode = some "Defuse" then r.defuseRoundTime
  else if r.roundResultCode = some "Elimination" then
    let lastKillTime := maxKillTime r
    if lastKillTime > 0 then some lastKillTime else none
  else if r.roundResultCode = some "Detonate" then
    r.plantRoundTime.map (fun plantTime => plantTime + 45000)
  else none

/-- The kill-inclusion test of the collection loops:
`effective_round_end_time is None or kill_time <= effective_round_end_time`. -/
def cutoffOk (cutoff : Option ℤ) (t : ℤ) : Bool :=
  match cutoff with
  | none => true
  | some c => t ≤ c

/-! ### `_determine_sides` (kill_contrib.py / death_contrib.py) -/

/-- Planter-team side rule: rounds 0–11 → planter's team attacks,
rounds 12+ → planter's team defends.  The other label is the source's
hardcoded complement `'Blue' if … == 'Red' else 'Red'`. -/
def sidesFromPlanterTeam (currentRound : ℤ) (teamId : String) :
    String × String :=
  if currentRound < 12 then
    (teamId, if teamId = "Red" then "Blue" else "Red")
  else
    ((if teamId = "Red" then "Blue" else "Red"), teamId)

/-- The inner roster loop of the search phase of `_determine_sides`
(kill_contrib.py lines 386–399).  As in the source, the loop returns on
its first iteration: with the planter's sides when the first roster
entry is the planter, otherwise with the first entry's team as attacker
(the source's early-return slip).  `none` = empty roster (the loop body
never runs and control falls through to the next searched round). -/
def searchRosterLoop (players : List MatchPlayer) (planter : String)
    (currentRound : ℤ) : Option (String × String) :=
  match players with
  | [] => none
  | p :: _ =>
    if p.puuid = planter then
      some (sidesFromPlanterTeam currentRound p.teamId)
    else
      some (p.teamId, if p.teamId = "Red" then "Blue" else "Red")

/-- The outer search loop of `_determine_sides` over the round indices
of the current half (with the `round_num < len(rounds)` guard). -/
def searchRoundsLoop (rounds : List Round) (players : List MatchPlayer)
    (currentRound : ℤ) : List ℕ → Option (String × String)
  | [] => none
  | i :: rest =>
    match rounds[i]? with
    | none => searchRoundsLoop rounds players currentRound rest
    | some ri =>
      if truthyStr ri.bombPlanter then
        match searchRosterLoop players (ri.bombPlanter.getD "") currentRound with
        | some sides => some sides
        | none => searchRoundsLoop rounds players currentRound rest
      else searchRoundsLoop rounds players currentRound rest

/-- `_determine_sides`: the current round's planter decides sides when
its puuid is on the roster; otherwise the rounds of the current half
(`range(0, min(12, len))` / `range(12, len)`) are searched; otherwise
the fixed fallback `('Blue', 'Red')`. -/
def determineSides (m : MatchRec) (roundData : Round)
    (players : List MatchPlayer) : String × String :=
  let currentRound := roundData.roundNum
  let direct : Option (String × String) :=
    if truthyStr roundData.bombPlanter then
      (players.find? (fun p => p.puuid = roundData.bombPlanter.getD "")).map
        (fun p => sidesFromPlanterTeam currentRound p.teamId)
    else none
  match direct with
  | some sides => sides
  | none =>
    let rounds := m.roundResults
    let searchIdx : List ℕ :=
      if currentRound < 12 then List.range (min 12 rounds.length)
      else List.range' 12 (rounds.length - 12)
    match searchRoundsLoop rounds players currentRound searchIdx with
    | some sides => sides
    | none => ("Blue", "Red")

/-! ### Timeline building -/

/-- The kill-collection loop of `calculate_kill_contrib`
(kill_contrib.py lines 59–70): events carry killer, victim and time
only — `finishingDamage` is NOT copied, so the later `'Bomb'` test in
the replay loop never fires in this engine. -/
def collectKillsKC (cutoff : Option ℤ) (stats : List PlayerStat) :
    List KillEvent :=
  (stats.map (fun ps =>
    (ps.kills.filter (fun k => cutoffOk cutoff k.timeSinceRoundStartMillis)).map
      (fun k => ⟨k.killer, k.victim, k.timeSinceRoundStartMillis, none⟩))).flatten

/-- The kill-collection loop of `calculate_death_contrib`
(death_contrib.py lines 54–66): same, but `finishingDamage` is kept. -/
def collectKillsDC (cutoff : Option ℤ) (stats : List PlayerStat) :
    List KillEvent :=
  (stats.map (fun ps =>
    (ps.kills.filter (fun k => cutoffOk cutoff k.timeSinceRoundStartMillis)).map
      (fun k => ⟨k.killer, k.victim, k.timeSinceRoundStartMillis, k.damageType⟩))).flatten

/-- `all_kills.sort(key=lambda k: k['time'])`: python's sort is stable,
so it is the stable insertion sort by time. -/
def sortByTime (l : List KillEvent) : List KillEvent :=
  l.insertionSort (fun a b => a.time ≤ b.time)

/-! ### Kill-contribution engine -/

/-- `victim_team = _get_team_from_puuid(...)` followed by
`if victim_team and alive[victim_team] > 0: alive[victim_team] -= 1`. -/
def decrementVictimIfAlive (alive : Alive) (victimTeam : Option String) :
    Alive :=
  match victimTeam with
  | none => alive
  | some vt => if aliveGet alive vt > 0 then aliveDec alive vt else alive

/-- The post-event probability used by the engines (kill_contrib.py
lines 130–137): the table lookup for the post-kill key, replaced by
`_adjust_win_for_outcome`'s value when that returns an adjustment. -/
def postEventWinProb (xvxAfter : String) (spikePlanted : Bool)
    (xvxData : WinProbTables) (killerIsAttacker : Bool) (r : Round) :
    Except String ℚ := do
  let winProbAfter ← getWinProbabilityKillerPerspective xvxAfter
    spikePlanted xvxData killerIsAttacker
  let adjusted ← adjustWinForOutcome xvxAfter killerIsAttacker r
  match adjusted with
  | some a => pure a
  | none => pure winProbAfter

/-- One iteration of the replay loop of `calculate_kill_contrib`
(kill_contrib.py lines 79–154), acting on
`(alive, total_kill_contrib)`.  Note the source compares the side
designation `killer_team` (`"atk"`/`"def"`) with the team label
`atk_team` to form `killer_is_attacker`; that comparison is embedded
as written. -/
def killStep (puuid : String) (players : List MatchPlayer)
    (atkTeam defTeam : String) (spikePlanted : Bool)
    (xvxData : WinProbTables) (economicData : EconData) (roundData : Round)
    (st : Alive × ℚ) (k : KillEvent) : Except String (Alive × ℚ) :=
  let alive := st.1
  let acc := st.2
  if k.damageType = some "Bomb" then
    .ok (decrementVictimIfAlive alive
      (getTeamFromPuuid k.victim players atkTeam defTeam), acc)
  else if k.killer ≠ puuid then
    .ok (decrementVictimIfAlive alive
      (getTeamFromPuuid k.victim players atkTeam defTeam), acc)
  else
    match getTeamFromPuuid k.killer players atkTeam defTeam,
          getTeamFromPuuid k.victim players atkTeam defTeam with
    | some killerTeam, some victimTeam =>
      if killerTeam = victimTeam then .ok (alive, acc)
      else if aliveGet alive victimTeam = 0 ∨ aliveGet alive killerTeam = 0 then
        .ok (alive, acc)
      else do
        let killerIsAttacker : Bool := decide (killerTeam = atkTeam)
        let xvxBefore := getXvxKey (aliveGet alive killerTeam)
          (aliveGet alive victimTeam)
        let winProbBefore ← getWinProbabilityKillerPerspective xvxBefore
          spikePlanted xvxData killerIsAttacker
        let alive2 := aliveDec alive victimTeam
        let xvxAfter := getXvxKey (aliveGet alive2 killerTeam)
          (aliveGet alive2 victimTeam)
        let winProbAfter ← postEventWinProb xvxAfter spikePlanted xvxData
          killerIsAttacker roundData
        let baseImpact := winProbAfter - winProbBefore
        let economicModifier := calculateEconomicModifier
          (getPlayerLoadout k.killer roundData)
          (getPlayerLoadout k.victim roundData) economicData
        .ok (alive2, acc + baseImpact * economicModifier)
    | _, _ => .ok (alive, acc)

/-- Replay of one round by `calculate_kill_contrib`: build and sort the
timeline, then fold the replay loop from `({'atk': 5, 'def': 5}, 0)`. -/
def replayRoundKC (puuid : String) (m : MatchRec) (economicData : EconData)
    (xvxData : WinProbTables) (roundData : Round) :
    Except String (Alive × ℚ) :=
  let spikePlanted := roundData.plantRoundTime.isSome
  let sides := determineSides m roundData m.players
  let cutoff := getEffectiveRoundEndTime roundData
  let allKills := sortByTime (collectKillsKC cutoff roundData.playerStats)
  allKills.foldlM (killStep puuid m.players sides.1 sides.2 spikePlanted
    xvxData economicData roundData) (⟨5, 5⟩, 0)

/-- `calculate_kill_contrib`: sum of the per-round accumulations.  The
disk fallback for falsy tables (`_load_data_files`) is I/O and outside
the embedding; the tables are taken as given. -/
def calculateKillContrib (player : MatchPlayer) (m : MatchRec)
    (economicData : EconData) (xvxData : WinProbTables) :
    Except String ℚ :=
  m.roundResults.foldlM
    (fun acc roundData =>
      (replayRoundKC player.puuid m economicData xvxData roundData).map
        (fun st => acc + st.2)) 0

/-! ### Death-contribution engine -/

/-- One iteration of the replay loop of `calculate_death_contrib`
(death_contrib.py lines 75–152).  Events not about this player's death
only update alive counts; a scored death is computed from the victim's
perspective and forced negative by `-abs(...)` before accumulation. -/
def deathStep (puuid : String) (players : List MatchPlayer)
    (atkTeam defTeam : String) (spikePlanted : Bool)
    (xvxData : WinProbTables) (economicData : EconData) (roundData : Round)
    (st : Alive × ℚ) (k : KillEvent) : Except String (Alive × ℚ) :=
  let alive := st.1
  let acc := st.2
  if k.damageType = some "Bomb" then
    .ok (decrementVictimIfAlive alive
      (getTeamFromPuuid k.victim players atkTeam defTeam), acc)
  else if k.victim ≠ puuid then
    .ok (decrementVictimIfAlive alive
      (getTeamFromPuuid k.victim players atkTeam defTeam), acc)
  else
    match getTeamFromPuuid k.killer players atkTeam defTeam,
          getTeamFromPuuid k.victim players atkTeam defTeam with
    | some killerTeam, some victimTeam =>
      if killerTeam = victimTeam then .ok (alive, acc)
      else if aliveGet alive victimTeam = 0 ∨ aliveGet alive killerTeam = 0 then
        .ok (alive, acc)
      else do
        let victimIsAttacker : Bool := decide (victimTeam = atkTeam)
        let xvxBefore := getXvxKey (aliveGet alive victimTeam)
          (aliveGet alive killerTeam)
        let winProbBefore ← getWinProbabilityKillerPerspective xvxBefore
          spikePlanted xvxData victimIsAttacker
        let alive2 := aliveDec alive victimTeam
        let xvxAfter := getXvxKey (aliveGet alive2 victimTeam)
          (aliveGet alive2 killerTeam)
        let winProbAfter ← postEventWinProb xvxAfter spikePlanted xvxData
          victimIsAttacker roundData
        let baseImpact := winProbAfter - winProbBefore
        let economicModifier := calculateEconomicModifier
          (getPlayerLoadout k.killer roundData)
          (getPlayerLoadout k.victim roundData) economicData
        let deathImpact := baseImpact * economicModifier
        .ok (alive2, acc + (-|deathImpact|))
    | _, _ => .ok (alive, acc)

/-- Replay of one round by `calculate_death_contrib`. -/
def replayRoundDC (puuid : String) (m : MatchRec) (economicData : EconData)
    (xvxData : WinProbTables) (roundData : Round) :
    Except String (Alive × ℚ) :=
  let spikePlanted := roundData.plantRoundTime.isSome
  let sides := determineSides m roundData m.players
  let cutoff := getEffectiveRoundEndTime roundData
  let allKills := sortByTime (collectKillsDC cutoff roundData.playerStats)
  allKills.foldlM (deathStep puuid m.players sides.1 sides.2 spikePlanted
    xvxData economicData roundData) (⟨5, 5⟩, 0)

/-- `calculate_death_contrib`: sum of the per-round accumulations. -/
def calculateDeathContrib (player : MatchPlayer) (m : MatchRec)
    (economicData : EconData) (xvxData : WinProbTables) :
    Except String ℚ :=
  m.roundResults.foldlM
    (fun acc roundData =>
      (replayRoundDC player.puuid m economicData xvxData roundData).map
        (fun st => acc + st.2)) 0

/-! ### APR (`apr.py`) -/

/-- `calculate_apr`: `assists / rounds_played`, `0.0` for missing stats
or zero rounds played.  The source's other arguments are unused. -/
def calculateApr (player : MatchPlayer) : ℚ :=
  match player.stats with
  | none => 0
  | some stats =>
    if stats.roundsPlayed = 0 then 0
    else (stats.assists : ℚ) / (stats.roundsPlayed : ℚ)

/-! ### ADRa (`adra.py`) -/

/-- `_apply_post_round_modifier` (adra.py): kills after ~100 s
(100 000 ms) have their impact halved. -/
def applyPostRoundModifier (impact : ℚ) (killTime : ℤ) : ℚ :=
  if killTime > 100000 then impact * (1/2) else impact

/-- The `[:12]` search loop of adra's `_determine_sides`.  Unlike the
kill/death variant, this loop only returns when the planter is actually
found on the roster. -/
def adraSearchLoop (players : List MatchPlayer) :
    List Round → Option (String × String)
  | [] => none
  | r :: rest =>
    if truthyStr r.bombPlanter then
      match players.find? (fun p => p.puuid = r.bombPlanter.getD "") with
      | some p => some (p.teamId, if p.teamId = "Red" then "Blue" else "Red")
      | none => adraSearchLoop players rest
    else adraSearchLoop players rest

/-- `_determine_sides` of adra.py: the planter's team is always taken
as attacker (no halftime swap), searching `roundResults[:12]` when the
current round has no planter; fallback `('Blue', 'Red')`. -/
def adraDetermineSides (m : MatchRec) (roundData : Round)
    (players : List MatchPlayer) : String × String :=
  let direct : Option (String × String) :=
    if truthyStr roundData.bombPlanter then
      (players.find? (fun p => p.puuid = roundData.bombPlanter.getD "")).map
        (fun p => (p.teamId, if p.teamId = "Red" then "Blue" else "Red"))
    else none
  match direct with
  | some sides => sides
  | none =>
    match adraSearchLoop players (m.roundResults.take 12) with
    | some sides => sides
    | none => ("Blue", "Red")

/-- Table selection of adra's `_get_win_prob`: the f-string
`f'{side}_spike'` / `f'{side}_no_spike'` names one of the four tables;
any other side string names a missing key, read as `{}`. -/
def adraSelectTable (t : WinProbTables) (side : String) (spike : Bool) :
    List (String × ℚ) :=
  if side = "atk" then (if spike then t.atkSpike else t.atkNoSpike)
  else if side = "def" then (if spike then t.defSpike else t.defNoSpike)
  else []

/-- `_get_win_prob` (adra.py): falsy `xvx_data` → `0.5`, otherwise
per-side table lookup with fallback `0.5` (no defender inversion). -/
def adraGetWinProb (xvxKey side : String) (spikePlanted : Bool)
    (xvxData : Option WinProbTables) : ℚ :=
  match xvxData with
  | none => 1/2
  | some t => ((adraSelectTable t side spikePlanted).lookup xvxKey).getD (1/2)

/-- `_adjust_win_for_outcome` (adra.py): `X v 0` override derived from
the actual `winningTeam` compared against the resolved side labels.
The split/`int()` raise is the `Except.error` (unreachable for
engine-built keys). -/
def adraAdjustWinForOutcome (xvxKey side : String)
    (winningTeam : Option String) (atkTeam defTeam : String) :
    Except String (Option ℚ) :=
  if ¬ (xvxKey.toList.contains '0') then .ok none
  else
    let fromWinner : Option ℚ :=
      if winningTeam = some atkTeam then some (if side = "atk" then 1 else 0)
      else if winningTeam = some defTeam then some (if side = "atk" then 0 else 1)
      else none
    let parsePhase : Except String (Option ℚ) :=
      match pySplit 'v' xvxKey.toList with
      | [left, right] =>
        match pyInt left, pyInt right with
        | some leftAlive, some rightAlive =>
          if leftAlive = 0 then .ok fromWinner
          else if rightAlive = 0 then .ok fromWinner
          else .ok none
        | _, _ => .error "ValueError"
      | _ => .error "ValueError"
    if (xvxKey = "1v0" ∨ xvxKey = "0v1") ∧ fromWinner.isSome then
      .ok fromWinner
    else parsePhase

/-- The ordered-dict insertion `impacts[(killer, victim)] = …`:
replace the value of an existing key in place, else append. -/
def insertPair (l : List ((String × String) × ℚ)) (key : String × String)
    (v : ℚ) : List ((String × String) × ℚ) :=
  match l with
  | [] => [(key, v)]
  | (k, w) :: rest =>
    if k = key then (k, v) :: rest else (k, w) :: insertPair rest key v

/-- One iteration of the kill loop of `_calculate_xvx_impacts`
(adra.py lines 90–132): no Bomb or friendly-fire skip, per-side tables
without inversion, outcome override from the actual winning team, and
the post-round time decay. -/
def adraStep (players : List MatchPlayer) (atkTeam defTeam : String)
    (spikePlanted : Bool) (xvxData : Option WinProbTables)
    (roundData : Round) (st : Alive × List ((String × String) × ℚ))
    (k : KillEvent) : Except String (Alive × List ((String × String) × ℚ)) :=
  let alive := st.1
  let impacts := st.2
  match getTeamFromPuuid k.killer players atkTeam defTeam,
        getTeamFromPuuid k.victim players atkTeam defTeam with
  | some killerTeam, some victimTeam =>
    if aliveGet alive victimTeam = 0 then .ok (alive, impacts)
    else if aliveGet alive killerTeam = 0 then .ok (alive, impacts)
    else do
      let xvxKey := getXvxKey (aliveGet alive killerTeam)
        (aliveGet alive (if killerTeam = "def" then "atk" else "def"))
      let oldWinProb := adraGetWinProb xvxKey killerTeam spikePlanted xvxData
      let alive2 := aliveDec alive victimTeam
      let newXvxKey := getXvxKey (aliveGet alive2 killerTeam)
        (aliveGet alive2 (if killerTeam = "def" then "atk" else "def"))
      let newWinProb := adraGetWinProb newXvxKey killerTeam spikePlanted xvxData
      let adjusted ← adraAdjustWinForOutcome newXvxKey killerTeam
        roundData.winningTeam atkTeam defTeam
      let newWinProb2 := match adjusted with
        | some a => a
        | none => newWinProb
      let impact := newWinProb2 - oldWinProb
      let impact2 := applyPostRoundModifier impact k.time
      .ok (alive2, insertPair impacts (k.killer, k.victim) impact2)
  | _, _ => .ok (alive, impacts)

/-- `_calculate_xvx_impacts` (adra.py): every kill of the round (no
cutoff), sorted by time, replayed from `{'atk': 5, 'def': 5}`. -/
def adraXvxImpacts (m : MatchRec) (roundData : Round)
    (players : List MatchPlayer) (xvxData : Option WinProbTables) :
    Except String (List ((String × String) × ℚ)) :=
  let spikePlanted := roundData.plantRoundTime.isSome
  let sides := adraDetermineSides m roundData players
  let allKills := sortByTime ((roundData.playerStats.map (fun ps =>
    ps.kills.map (fun kk =>
      (⟨kk.killer, kk.victim, kk.timeSinceRoundStartMillis, none⟩ :
        KillEvent)))).flatten)
  (allKills.foldlM (adraStep players sides.1 sides.2 spikePlanted xvxData
    roundData) (⟨5, 5⟩, [])).map (fun st => st.2)

/-- Expected damage of one of this player's kills in adra:
`100 + armor bonus` from the victim's armor that round
(`{'Light': 25, 'Heavy': 50, 'Regen': 25}`, default `0`). -/
def expectedDamageForKill (victim : String) (roundData : Round) : ℤ :=
  let victimArmor := ((roundData.playerStats.find?
    (fun ps => ps.puuid = victim)).map (fun ps => ps.economy.armor)).getD "None"
  let armorValue : ℤ :=
    if victimArmor = "Light" then 25
    else if victimArmor = "Heavy" then 50
    else if victimArmor = "Regen" then 25
    else 0
  100 + armorValue

/-- `calculate_adra`:
`max(0, (total_damage - expected_damage) / rounds_played)`, with the
expected damage summed over this player's entries of each round's
xvx-impact map; `0.0` for missing stats or zero rounds played. -/
def calculateAdra (player : MatchPlayer) (m : MatchRec)
    (damageData : List (String × ℤ)) (xvxData : Option WinProbTables) :
    Except String ℚ :=
  match player.stats with
  | none => .ok 0
  | some stats =>
    if stats.roundsPlayed = 0 then .ok 0
    else do
      let totalDamage := (damageData.lookup player.puuid).getD 0
      let expectedDamage ← m.roundResults.foldlM
        (fun acc roundData => do
          let impacts ← adraXvxImpacts m roundData m.players xvxData
          pure (acc + ((impacts.filter (fun e => e.1.1 = player.puuid)).map
            (fun e => expectedDamageForKill e.1.2 roundData)).sum))
        (0 : ℤ)
      .ok (max 0 (((totalDamage : ℚ) - (expectedDamage : ℚ)) /
        (stats.roundsPlayed : ℚ)))

/-! ### Concrete inputs used by counterexamples and witnesses -/

/-- Empty probability tables (all lookups fall back to 0.5). -/
def emptyTables : WinProbTables := ⟨[], [], [], []⟩

/-- A red-team player with no stats record. -/
def redPlayer : MatchPlayer := ⟨"P1", "Red", none⟩

/-- A blue-team player with no stats record. -/
def bluePlayer : MatchPlayer := ⟨"P2", "Blue", none⟩

/-- Round for the decay counterexample: no result code (hence no
cutoff), planter `P1` (so Red attacks, round 0), and a single kill by
`P1` on `P2` at 150 000 ms — well past the 100 000 ms decay threshold. -/
def lateKillRound : Round :=
  ⟨0, none, none, none, none, none, some "P1",
   [⟨"P1", ⟨0, "None"⟩, [⟨"P1", "P2", 150000, none⟩]⟩,
    ⟨"P2", ⟨0, "None"⟩, []⟩]⟩

/-- Match wrapping `lateKillRound`. -/
def lateKillMatch : MatchRec := ⟨[redPlayer, bluePlayer], [lateKillRound]⟩

/-- Attacker tables for the decay counterexample:
`atk_no_spike["5v5"] = 9/10`, `atk_no_spike["4v5"] = 1/2`. -/
def lateKillTables : WinProbTables :=
  ⟨[], [("5v5", 9/10), ("4v5", 1/2)], [], []⟩

/-- A second red-team player (for the friendly-fire counterexample). -/
def redPlayerB : MatchPlayer := ⟨"P2", "Red", none⟩

/-- Round for the friendly-fire counterexample: planter `P1` (Red
attacks), one kill where killer `P1` and victim `P2` are both Red. -/
def friendlyFireRound : Round :=
  ⟨0, none, none, none, none, none, some "P1",
   [⟨"P1", ⟨0, "None"⟩, [⟨"P1", "P2", 1000, none⟩]⟩]⟩

/-- Match wrapping `friendlyFireRound`. -/
def friendlyFireMatch : MatchRec := ⟨[redPlayer, redPlayerB], [friendlyFireRound]⟩

/-- Round for the terminal-override counterexample: planter `P1` (so
Red attacks), the attackers (`Red`) actually won, the spike was
planted, and the round ended by elimination. -/
def terminalRound : Round :=
  ⟨0, some "Red", none, some "Elimination", some 5000, none, some "P1", []⟩

/-- Match wrapping `terminalRound`. -/
def terminalMatch : MatchRec := ⟨[redPlayer, bluePlayer], [terminalRound]⟩

/-- First-half round with no planter (for the side-resolution bug). -/
def noPlanterRound : Round := ⟨0, none, none, none, none, none, none, []⟩

/-- First-half round whose planter is `P2` — the second roster entry. -/
def planterP2Round : Round := ⟨1, none, none, none, none, none, some "P2", []⟩

/-- Blue-team `P1` (roster head for the side-resolution bug). -/
def bluePlayer2 : MatchPlayer := ⟨"P1", "Blue", none⟩

/-- Red-team `P2` (the planter for the side-resolution bug). -/
def redPlayer2 : MatchPlayer := ⟨"P2", "Red", none⟩

/-- Match for the side-resolution bug: the roster lists Blue's `P1`
first and the planter `P2` (Red) second. -/
def sideBugMatch : MatchRec := ⟨[bluePlayer2, redPlayer2], [noPlanterRound, planterP2Round]⟩

/-- Elimination round whose only kill is at timestamp 0 (cutoff
corner case). -/
def zeroTimeElimRound : Round :=
  ⟨0, none, some "Elimination", none, none, none, none,
   [⟨"P1", ⟨0, "None"⟩, [⟨"P1", "P2", 0, none⟩]⟩]⟩

/-! ### Key lemmas -/

/-- For in-range counts the inverse of `"AvB"` is `"BvA"` (and the
defender-path unpacking cannot raise). -/
lemma getInverseXvxKey_getXvxKey (a b : ℤ) (ha0 : 0 ≤ a) (ha5 : a ≤ 5)
    (hb0 : 0 ≤ b) (hb5 : b ≤ 5) :
    getInverseXvxKey (getXvxKey a b) = .ok (getXvxKey b a) := by
  interval_cases a <;> interval_cases b <;> decide

/-- For in-range counts, `'0' in key` holds exactly when one count is
zero. -/
lemma key_contains_zero (a b : ℤ) (ha0 : 0 ≤ a) (ha5 : a ≤ 5)
    (hb0 : 0 ≤ b) (hb5 : b ≤ 5) :
    (getXvxKey a b).toList.contains '0' =
      (decide (a = 0) || decide (b = 0)) := by
  interval_cases a <;> interval_cases b <;> decide

/-- For in-range counts, splitting the key on `'v'` recovers its two
parts. -/
lemma pySplit_getXvxKey (a b : ℤ) (ha0 : 0 ≤ a) (ha5 : a ≤ 5)
    (hb0 : 0 ≤ b) (hb5 : b ≤ 5) :
    pySplit 'v' (getXvxKey a b).toList =
      [(toString a).toList, (toString b).toList] := by
  interval_cases a <;> interval_cases b <;> decide

/-- `int()` undoes `toString` on in-range counts. -/
lemma pyInt_toString (a : ℤ) (ha0 : 0 ≤ a) (ha5 : a ≤ 5) :
    pyInt (toString a).toList = some a := by
  interval_cases a <;> decide

/-- Monadic bind on a successful `Except` value reduces. -/
lemma ok_bind {α β : Type} (x : α) (f : α → Except String β) :
    (Except.ok x >>= f : Except String β) = f x := rfl

/-- Attacker-perspective lookup: direct table read with fallback. -/
lemma winProb_attacker (xvxKey : String) (spike : Bool)
    (tbl : WinProbTables) :
    getWinProbabilityKillerPerspective xvxKey spike tbl true =
      .ok (((if spike then tbl.atkSpike else tbl.atkNoSpike).lookup
        xvxKey).getD (1/2)) := by
  cases spike <;> rfl

/-- Defender-perspective lookup on an in-range key: complement of the
attacker table at the swapped key. -/
lemma winProb_defender (a b : ℤ) (ha0 : 0 ≤ a) (ha5 : a ≤ 5)
    (hb0 : 0 ≤ b) (hb5 : b ≤ 5) (spike : Bool) (tbl : WinProbTables) :
    getWinProbabilityKillerPerspective (getXvxKey a b) spike tbl false =
      .ok (1 - ((if spike then tbl.atkSpike else tbl.atkNoSpike).lookup
        (getXvxKey b a)).getD (1/2)) := by
  have h := getInverseXvxKey_getXvxKey a b ha0 ha5 hb0 hb5
  cases spike <;>
    simp [getWinProbabilityKillerPerspective, h, ok_bind]

/-- The lookup succeeds (never raises) on in-range keys, from either
perspective. -/
lemma winProb_isOk (a b : ℤ) (ha0 : 0 ≤ a) (ha5 : a ≤ 5)
    (hb0 : 0 ≤ b) (hb5 : b ≤ 5) (spike : Bool) (tbl : WinProbTables)
    (isAtk : Bool) :
    ∃ q, getWinProbabilityKillerPerspective (getXvxKey a b) spike tbl
      isAtk = .ok q := by
  cases isAtk
  · exact ⟨_, winProb_defender a b ha0 ha5 hb0 hb5 spike tbl⟩
  · exact ⟨_, winProb_attacker _ spike tbl⟩

/-- Full characterization of `_adjust_win_for_outcome` on engine keys:
an adjustment is returned exactly when one count is zero, the winning
team is truthy and the winner's side could be inferred; its value is 1
for the killer when the inferred winner side is the killer's side,
else 0. -/
lemma adjustWinForOutcome_eq (a b : ℤ) (ha0 : 0 ≤ a) (ha5 : a ≤ 5)
    (hb0 : 0 ≤ b) (hb5 : b ≤ 5) (isAtk : Bool) (r : Round) :
    adjustWinForOutcome (getXvxKey a b) isAtk r =
      .ok (if (a = 0 ∨ b = 0) ∧ truthyStr r.winningTeam = true then
             (winnerWasAttacker isAtk r).map
               (fun w => if w = isAtk then 1 else 0)
           else none) := by
  unfold adjustWinForOutcome
  rw [key_contains_zero a b ha0 ha5 hb0 hb5]
  by_cases hz : a = 0 ∨ b = 0
  · have hzb : (decide (a = 0) || decide (b = 0)) = true := by
      rcases hz with h | h <;> simp [h]
    by_cases ht : truthyStr r.winningTeam = true
    · cases hw : winnerWasAttacker isAtk r with
      | none => simp [hzb, ht, hw, hz]
      | some w =>
        rw [pySplit_getXvxKey a b ha0 ha5 hb0 hb5]
        simp only [hzb, ht, hw, hz, pyInt_toString a ha0 ha5,
          pyInt_toString b hb0 hb5, Bool.not_true, Bool.false_eq_true,
          if_false, and_true, if_true, Option.map_some]
        rcases Decidable.em (b = 0) with hb | hb
        · simp [hb]
          cases w <;> cases isAtk <;> simp
        · have ha : a = 0 := by tauto
          simp [hb, ha]
          cases w <;> cases isAtk <;> simp
    · have htb : truthyStr r.winningTeam = false := by
        simpa using ht
      simp [hzb, htb, ht]
  · have hzb : (decide (a = 0) || decide (b = 0)) = false := by
      push_neg at hz
      simp [hz.1, hz.2]
    simp [hzb, hz]

/-- The adjustment never raises on engine keys. -/
lemma adjust_isOk (a b : ℤ) (ha0 : 0 ≤ a) (ha5 : a ≤ 5)
    (hb0 : 0 ≤ b) (hb5 : b ≤ 5) (isAtk : Bool) (r : Round) :
    ∃ o, adjustWinForOutcome (getXvxKey a b) isAtk r = .ok o :=
  ⟨_, adjustWinForOutcome_eq a b ha0 ha5 hb0 hb5 isAtk r⟩

/-- The engine's post-event probability never raises on engine keys. -/
lemma postEventWinProb_isOk (a b : ℤ) (ha0 : 0 ≤ a) (ha5 : a ≤ 5)
    (hb0 : 0 ≤ b) (hb5 : b ≤ 5) (spike : Bool) (tbl : WinProbTables)
    (isAtk : Bool) (r : Round) :
    ∃ q, postEventWinProb (getXvxKey a b) spike tbl isAtk r = .ok q := by
  obtain ⟨q, hq⟩ := winProb_isOk a b ha0 ha5 hb0 hb5 spike tbl isAtk
  obtain ⟨o, ho⟩ := adjust_isOk a b ha0 ha5 hb0 hb5 isAtk r
  cases o with
  | none => exact ⟨q, by simp [postEventWinProb, hq, ho, ok_bind]⟩
  | some v => exact ⟨v, by simp [postEventWinProb, hq, ho, ok_bind]⟩

/-! ### Alive-state lemmas -/

/-- The invariant of the alive counts: both within `[0, 5]`. -/
def aliveInv (a : Alive) : Prop :=
  0 ≤ a.atk ∧ a.atk ≤ 5 ∧ 0 ≤ a.dfn ∧ a.dfn ≤ 5

/-- `aliveGet` stays within the invariant bounds. -/
lemma aliveGet_bounds (a : Alive) (t : String) (h : aliveInv a) :
    0 ≤ aliveGet a t ∧ aliveGet a t ≤ 5 := by
  obtain ⟨h1, h2, h3, h4⟩ := h
  unfold aliveGet
  split_ifs <;> exact ⟨by omega, by omega⟩

/-- Decrementing reduces the two counts' sum by exactly one. -/
lemma aliveDec_total (a : Alive) (t : String) :
    (aliveDec a t).atk + (aliveDec a t).dfn = a.atk + a.dfn - 1 := by
  unfold aliveDec
  split_ifs <;> simp <;> omega

/-- Decrementing never increases either count. -/
lemma aliveDec_le (a : Alive) (t : String) :
    (aliveDec a t).atk ≤ a.atk ∧ (aliveDec a t).dfn ≤ a.dfn := by
  unfold aliveDec
  split_ifs <;> constructor <;> simp

/-- Decrementing a positive count preserves the invariant. -/
lemma aliveDec_inv (a : Alive) (t : String) (h : aliveInv a)
    (hg : aliveGet a t > 0) : aliveInv (aliveDec a t) := by
  obtain ⟨h1, h2, h3, h4⟩ := h
  unfold aliveGet at hg
  unfold aliveInv aliveDec
  split_ifs at hg ⊢ <;> simp <;> omega

/-- The guarded decrement leaves the state unchanged or decrements one
positive count. -/
lemma decrementVictimIfAlive_cases (alive : Alive) (team : Option String) :
    decrementVictimIfAlive alive team = alive
    ∨ ∃ t, aliveGet alive t > 0
        ∧ decrementVictimIfAlive alive team = aliveDec alive t := by
  cases team with
  | none => exact Or.inl rfl
  | some t =>
    by_cases h : aliveGet alive t > 0
    · exact Or.inr ⟨t, h, by simp [decrementVictimIfAlive, h]⟩
    · exact Or.inl (by simp [decrementVictimIfAlive, h])

/-- One kill-replay step always succeeds under the invariant, and
leaves the alive counts unchanged or decrements one positive count. -/
lemma killStep_cases (puuid : String) (players : List MatchPlayer)
    (atkTeam defTeam : String) (spike : Bool) (xvx : WinProbTables)
    (econ : EconData) (r : Round) (st : Alive × ℚ) (e : KillEvent)
    (hinv : aliveInv st.1) :
    ∃ st', killStep puuid players atkTeam defTeam spike xvx econ r st e =
        .ok st'
      ∧ (st'.1 = st.1 ∨
          ∃ t, aliveGet st.1 t > 0 ∧ st'.1 = aliveDec st.1 t) := by
  simp only [killStep]
  by_cases hb : e.damageType = some "Bomb"
  · simp only [if_pos hb]
    rcases decrementVictimIfAlive_cases st.1
      (getTeamFromPuuid e.victim players atkTeam defTeam) with h | ⟨t, hpos, hdec⟩
    · exact ⟨_, rfl, Or.inl h⟩
    · exact ⟨_, rfl, Or.inr ⟨t, hpos, hdec⟩⟩
  · simp only [if_neg hb]
    by_cases hk : e.killer ≠ puuid
    · simp only [if_pos hk]
      rcases decrementVictimIfAlive_cases st.1
        (getTeamFromPuuid e.victim players atkTeam defTeam) with h | ⟨t, hpos, hdec⟩
      · exact ⟨_, rfl, Or.inl h⟩
      · exact ⟨_, rfl, Or.inr ⟨t, hpos, hdec⟩⟩
    · simp only [if_neg hk]
      cases hkt : getTeamFromPuuid e.killer players atkTeam defTeam with
      | none =>
        cases hvt : getTeamFromPuuid e.victim players atkTeam defTeam with
        | none => exact ⟨_, rfl, Or.inl rfl⟩
        | some vt => exact ⟨_, rfl, Or.inl rfl⟩
      | some kt =>
        cases hvt : getTeamFromPuuid e.victim players atkTeam defTeam with
        | none => exact ⟨_, rfl, Or.inl rfl⟩
        | some vt =>
          by_cases heq : kt = vt
          · simp only [if_pos heq]
            exact ⟨_, rfl, Or.inl rfl⟩
          · simp only [if_neg heq]
            by_cases hz : aliveGet st.1 vt = 0 ∨ aliveGet st.1 kt = 0
            · simp only [if_pos hz]
              exact ⟨_, rfl, Or.inl rfl⟩
            · simp only [if_neg hz]
              push_neg at hz
              obtain ⟨hzv, hzk⟩ := hz
              have hbk := aliveGet_bounds st.1 kt hinv
              have hbv := aliveGet_bounds st.1 vt hinv
              have hvpos : aliveGet st.1 vt > 0 := by omega
              have hinv2 : aliveInv (aliveDec st.1 vt) :=
                aliveDec_inv st.1 vt hinv hvpos
              have hbk2 := aliveGet_bounds (aliveDec st.1 vt) kt hinv2
              have hbv2 := aliveGet_bounds (aliveDec st.1 vt) vt hinv2
              obtain ⟨q1, hq1⟩ := winProb_isOk (aliveGet st.1 kt)
                (aliveGet st.1 vt) hbk.1 hbk.2 hbv.1 hbv.2 spike xvx
                (decide (kt = atkTeam))
              obtain ⟨q2, hq2⟩ := postEventWinProb_isOk
                (aliveGet (aliveDec st.1 vt) kt)
                (aliveGet (aliveDec st.1 vt) vt) hbk2.1 hbk2.2 hbv2.1
                hbv2.2 spike xvx (decide (kt = atkTeam)) r
              rw [hq1, ok_bind, hq2, ok_bind]
              exact ⟨_, rfl, Or.inr ⟨vt, hvpos, rfl⟩⟩

/-- One death-replay step always succeeds under the invariant, leaves
the alive counts unchanged or decrements one positive count, and never
increases the accumulator. -/
lemma deathStep_cases (puuid : String) (players : List MatchPlayer)
    (atkTeam defTeam : String) (spike : Bool) (xvx : WinProbTables)
    (econ : EconData) (r : Round) (st : Alive × ℚ) (e : KillEvent)
    (hinv : aliveInv st.1) :
    ∃ st', deathStep puuid players atkTeam defTeam spike xvx econ r st e =
        .ok st'
      ∧ (st'.1 = st.1 ∨
          ∃ t, aliveGet st.1 t > 0 ∧ st'.1 = aliveDec st.1 t)
      ∧ st'.2 ≤ st.2 := by
  simp only [deathStep]
  by_cases hb : e.damageType = some "Bomb"
  · simp only [if_pos hb]
    rcases decrementVictimIfAlive_cases st.1
      (getTeamFromPuuid e.victim players atkTeam defTeam) with h | ⟨t, hpos, hdec⟩
    · exact ⟨_, rfl, Or.inl h, le_refl _⟩
    · exact ⟨_, rfl, Or.inr ⟨t, hpos, hdec⟩, le_refl _⟩
  · simp only [if_neg hb]
    by_cases hk : e.victim ≠ puuid
    · simp only [if_pos hk]
      rcases decrementVictimIfAlive_cases st.1
        (getTeamFromPuuid e.victim players atkTeam defTeam) with h | ⟨t, hpos, hdec⟩
      · exact ⟨_, rfl, Or.inl h, le_refl _⟩
      · exact ⟨_, rfl, Or.inr ⟨t, hpos, hdec⟩, le_refl _⟩
    · simp only [if_neg hk]
      cases hkt : getTeamFromPuuid e.killer players atkTeam defTeam with
      | none =>
        cases hvt : getTeamFromPuuid e.victim players atkTeam defTeam with
        | none => exact ⟨_, rfl, Or.inl rfl, le_refl _⟩
        | some vt => exact ⟨_, rfl, Or.inl rfl, le_refl _⟩
      | some kt =>
        cases hvt : getTeamFromPuuid e.victim players atkTeam defTeam with
        | none => exact ⟨_, rfl, Or.inl rfl, le_refl _⟩
        | some vt =>
          by_cases heq : kt = vt
          · simp only [if_pos heq]
            exact ⟨_, rfl, Or.inl rfl, le_refl _⟩
          · simp only [if_neg heq]
            by_cases hz : aliveGet st.1 vt = 0 ∨ aliveGet st.1 kt = 0
            · simp only [if_pos hz]
              exact ⟨_, rfl, Or.inl rfl, le_refl _⟩
            · simp only [if_neg hz]
              push_neg at hz
              obtain ⟨hzv, hzk⟩ := hz
              have hbk := aliveGet_bounds st.1 kt hinv
              have hbv := aliveGet_bounds st.1 vt hinv
              have hvpos : aliveGet st.1 vt > 0 := by omega
              have hinv2 : aliveInv (aliveDec st.1 vt) :=
                aliveDec_inv st.1 vt hinv hvpos
              have hbk2 := aliveGet_bounds (aliveDec st.1 vt) kt hinv2
              have hbv2 := aliveGet_bounds (aliveDec st.1 vt) vt hinv2
              obtain ⟨q1, hq1⟩ := winProb_isOk (aliveGet st.1 vt)
                (aliveGet st.1 kt) hbv.1 hbv.2 hbk.1 hbk.2 spike xvx
                (decide (vt = atkTeam))
              obtain ⟨q2, hq2⟩ := postEventWinProb_isOk
                (aliveGet (aliveDec st.1 vt) vt)
                (aliveGet (aliveDec st.1 vt) kt) hbv2.1 hbv2.2 hbk2.1
                hbk2.2 spike xvx (decide (vt = atkTeam)) r
              rw [hq1, ok_bind, hq2, ok_bind]
              refine ⟨_, rfl, Or.inr ⟨vt, hvpos, rfl⟩, ?_⟩
              have h0 : -|(q2 - q1) * calculateEconomicModifier
                  (getPlayerLoadout e.killer r)
                  (getPlayerLoadout e.victim r) econ| ≤ 0 :=
                neg_nonpos.mpr (abs_nonneg _)
              show st.2 + _ ≤ st.2
              linarith

/-- Folding the kill step over any event list from an invariant state
succeeds, preserves the invariant, never increases either count, and
loses at most one alive unit per event. -/
lemma foldlM_killStep (puuid : String) (players : List MatchPlayer)
    (atkTeam defTeam : String) (spike : Bool) (xvx : WinProbTables)
    (econ : EconData) (r : Round) :
    ∀ (events : List KillEvent) (st : Alive × ℚ), aliveInv st.1 →
    ∃ st', events.foldlM
        (killStep puuid players atkTeam defTeam spike xvx econ r) st =
        .ok st'
      ∧ aliveInv st'.1
      ∧ st'.1.atk ≤ st.1.atk ∧ st'.1.dfn ≤ st.1.dfn
      ∧ st.1.atk + st.1.dfn - events.length ≤ st'.1.atk + st'.1.dfn := by
  intro events
  induction events with
  | nil =>
    intro st hinv
    exact ⟨st, rfl, hinv, le_refl _, le_refl _, by simp⟩
  | cons e rest ih =>
    intro st hinv
    obtain ⟨st1, h1, hcase⟩ := killStep_cases puuid players atkTeam
      defTeam spike xvx econ r st e hinv
    have key : aliveInv st1.1 ∧ st1.1.atk ≤ st.1.atk
        ∧ st1.1.dfn ≤ st.1.dfn
        ∧ st.1.atk + st.1.dfn - 1 ≤ st1.1.atk + st1.1.dfn := by
      rcases hcase with h | ⟨t, hpos, hdec⟩
      · rw [h]
        exact ⟨hinv, le_refl _, le_refl _, by omega⟩
      · rw [hdec]
        refine ⟨aliveDec_inv st.1 t hinv hpos, (aliveDec_le st.1 t).1,
          (aliveDec_le st.1 t).2, ?_⟩
        have := aliveDec_total st.1 t
        omega
    obtain ⟨hinv1, hle1a, hle1d, htot1⟩ := key
    obtain ⟨st2, h2, hinv2, hle2a, hle2d, htot2⟩ := ih st1 hinv1
    refine ⟨st2, ?_, hinv2, le_trans hle2a hle1a,
      le_trans hle2d hle1d, ?_⟩
    · rw [List.foldlM_cons, h1, ok_bind]
      exact h2
    · simp only [List.length_cons]
      push_cast
      omega

/-- Same fold lemma for the death step, with the accumulator bound. -/
lemma foldlM_deathStep (puuid : String) (players : List MatchPlayer)
    (atkTeam defTeam : String) (spike : Bool) (xvx : WinProbTables)
    (econ : EconData) (r : Round) :
    ∀ (events : List KillEvent) (st : Alive × ℚ), aliveInv st.1 →
    ∃ st', events.foldlM
        (deathStep puuid players atkTeam defTeam spike xvx econ r) st =
        .ok st'
      ∧ aliveInv st'.1
      ∧ st'.1.atk ≤ st.1.atk ∧ st'.1.dfn ≤ st.1.dfn
      ∧ st.1.atk + st.1.dfn - events.length ≤ st'.1.atk + st'.1.dfn
      ∧ st'.2 ≤ st.2 := by
  intro events
  induction events with
  | nil =>
    intro st hinv
    exact ⟨st, rfl, hinv, le_refl _, le_refl _, by simp, le_refl _⟩
  | cons e rest ih =>
    intro st hinv
    obtain ⟨st1, h1, hcase, hacc1⟩ := deathStep_cases puuid players
      atkTeam defTeam spike xvx econ r st e hinv
    have key : aliveInv st1.1 ∧ st1.1.atk ≤ st.1.atk
        ∧ st1.1.dfn ≤ st.1.dfn
        ∧ st.1.atk + st.1.dfn - 1 ≤ st1.1.atk + st1.1.dfn := by
      rcases hcase with h | ⟨t, hpos, hdec⟩
      · rw [h]
        exact ⟨hinv, le_refl _, le_refl _, by omega⟩
      · rw [hdec]
        refine ⟨aliveDec_inv st.1 t hinv hpos, (aliveDec_le st.1 t).1,
          (aliveDec_le st.1 t).2, ?_⟩
        have := aliveDec_total st.1 t
        omega
    obtain ⟨hinv1, hle1a, hle1d, htot1⟩ := key
    obtain ⟨st2, h2, hinv2, hle2a, hle2d, htot2, hacc2⟩ := ih st1 hinv1
    refine ⟨st2, ?_, hinv2, le_trans hle2a hle1a,
      le_trans hle2d hle1d, ?_, le_trans hacc2 hacc1⟩
    · rw [List.foldlM_cons, h1, ok_bind]
      exact h2
    · simp only [List.length_cons]
      push_cast
      omega

/-- The alive counts satisfy `aliveInv` at `{'atk': 5, 'def': 5}`. -/
lemma aliveInv_start : aliveInv ⟨5, 5⟩ := by
  refine ⟨?_, ?_, ?_, ?_⟩ <;> norm_num

/-- A kill-contribution round replay always succeeds with in-range
final counts. -/
lemma replayRoundKC_inv (puuid : String) (m : MatchRec)
    (econ : EconData) (xvx : WinProbTables) (rd : Round) :
    ∃ st', replayRoundKC puuid m econ xvx rd = .ok st'
      ∧ aliveInv st'.1 := by
  obtain ⟨st', h, hinv, _⟩ := foldlM_killStep puuid m.players
    (determineSides m rd m.players).1 (determineSides m rd m.players).2
    rd.plantRoundTime.isSome xvx econ rd
    (sortByTime (collectKillsKC (getEffectiveRoundEndTime rd)
      rd.playerStats)) (⟨5, 5⟩, 0) aliveInv_start
  exact ⟨st', h, hinv⟩

/-- A death-contribution round replay always succeeds with in-range
final counts and a non-positive accumulator. -/
lemma replayRoundDC_inv (puuid : String) (m : MatchRec)
    (econ : EconData) (xvx : WinProbTables) (rd : Round) :
    ∃ st', replayRoundDC puuid m econ xvx rd = .ok st'
      ∧ aliveInv st'.1 ∧ st'.2 ≤ 0 := by
  obtain ⟨st', h, hinv, _, _, _, hacc⟩ := foldlM_deathStep puuid m.players
    (determineSides m rd m.players).1 (determineSides m rd m.players).2
    rd.plantRoundTime.isSome xvx econ rd
    (sortByTime (collectKillsDC (getEffectiveRoundEndTime rd)
      rd.playerStats)) (⟨5, 5⟩, 0) aliveInv_start
  exact ⟨st', h, hinv, hacc⟩

/-- The per-round summation of death contributions only decreases the
running total. -/
lemma deathRounds_fold (puuid : String) (m : MatchRec) (econ : EconData)
    (xvx : WinProbTables) :
    ∀ (rounds : List Round) (acc : ℚ),
    ∃ v, rounds.foldlM
        (fun acc2 roundData =>
          (replayRoundDC puuid m econ xvx roundData).map
            (fun st => acc2 + st.2)) acc = .ok v
      ∧ v ≤ acc := by
  intro rounds
  induction rounds with
  | nil => exact fun acc => ⟨acc, rfl, le_refl _⟩
  | cons rd rest ih =>
    intro acc
    obtain ⟨st', h, _, hacc⟩ := replayRoundDC_inv puuid m econ xvx rd
    obtain ⟨v, hv, hle⟩ := ih (acc + st'.2)
    refine ⟨v, ?_, by linarith⟩
    rw [List.foldlM_cons, h]
    show Except.ok (acc + st'.2) >>= _ = _
    rw [ok_bind]
    exact hv

/-- Modelled from the spec's words for comparison (claim C6): the win
rate `w` stored under `"{killer_category} vs {victim_category}"`,
`0.5` when the matchup (or the table) is absent. -/
def specEconWinRate (economicData : EconData)
    (killerLoadout victimLoadout : ℤ) : ℚ :=
  match economicData with
  | none => 1/2
  | some cats =>
    (cats.lookup (getEconomyCategory killerLoadout ++ " vs " ++
      getEconomyCategory victimLoadout)).getD (1/2)

/-! ### Counterexamples -/

/-- C1, counterexample.  A single scored kill at 150 000 ms (> 100 000,
and in the timeline since the round has no cutoff): the pre-event
probability is 1/10, the post-event probability 1/2, the economic
modifier 1, so base_impact × modifier = (1/2 − 1/10) × 1; the engine
attributes exactly that value — NOT halved as the claim requires for
events past 100 000 ms. -/
theorem c1_counterexample :
    (sortByTime (collectKillsKC (getEffectiveRoundEndTime lateKillRound)
      lateKillRound.playerStats)).map (fun e => e.time) = [150000]
    ∧ getWinProbabilityKillerPerspective (getXvxKey 5 5) false
        lateKillTables false = .ok (1/10)
    ∧ postEventWinProb (getXvxKey 5 4) false lateKillTables false
        lateKillRound = .ok (1/2)
    ∧ calculateEconomicModifier 0 0 none = 1
    ∧ calculateKillContrib redPlayer lateKillMatch none lateKillTables =
        .ok ((1/2 - 1/10) * 1)
    ∧ ¬ ((1/2 - 1/10 : ℚ) * 1 = (1/2) * ((1/2 - 1/10) * 1)) := by decide

/-- C2, counterexample.  A friendly-fire kill by the tracked player
(killer and victim both resolve to the attacking side): the timeline
holds one lethal event, yet the replay ends with both counts still 5 —
the skipped event decrements nothing, so the total number of
decrements (0) is not the number of lethal events (1). -/
theorem c2_counterexample :
    (sortByTime (collectKillsKC (getEffectiveRoundEndTime friendlyFireRound)
      friendlyFireRound.playerStats)).length = 1
    ∧ replayRoundKC "P1" friendlyFireMatch none emptyTables
        friendlyFireRound = .ok (⟨5, 5⟩, 0) := by decide

/-- C3, counterexample.  In `terminalRound` the attackers (`Red`) are
the side that actually won (`winningTeam = "Red"` and Red attacks),
yet for a defender-perspective scored kill with post-state `1v0` the
post-event probability used by the engine is 1.0 — the claim requires
0.0 for the side that did not win.  (The `Elimination` branch infers
the winner to be the killer's own side, ignoring `winningTeam`.) -/
theorem c3_counterexample :
    determineSides terminalMatch terminalRound terminalMatch.players =
      ("Red", "Blue")
    ∧ terminalRound.winningTeam = some "Red"
    ∧ postEventWinProb (getXvxKey 1 0) true emptyTables false
        terminalRound = .ok 1 := by decide

/-- C4.  Evaluation of `_determine_sides` at the failing input: the
current round has no planter, the searched round's planter `P2` is on
team `Red` and the round number is below 12, so by the claimed rule
`Red` must attack; the code instead returns the first roster entry's
team `Blue` as attacker (the search loop's early return ignores the
planter unless it happens to be the first roster entry). -/
theorem c4_side_resolution_bug :
    noPlanterRound.bombPlanter = none
    ∧ planterP2Round.bombPlanter = some "P2"
    ∧ (sideBugMatch.players.find? (fun p => p.puuid = "P2")).map
        (fun p => p.teamId) = some "Red"
    ∧ noPlanterRound.roundNum < 12
    ∧ determineSides sideBugMatch noPlanterRound sideBugMatch.players =
        ("Blue", "Red") := by decide

/-- C5, counterexample.  An Elimination round whose only kill has
timestamp 0: the timestamp of the last kill is 0, but the computed
cutoff is `none` (no cutoff), not that timestamp — the
`last_kill_time > 0` guard turns a last kill at time 0 into "no
cutoff". -/
theorem c5_counterexample :
    zeroTimeElimRound.roundResultCode = some "Elimination"
    ∧ (zeroTimeElimRound.playerStats.map (fun ps =>
        ps.kills.map (fun k => k.timeSinceRoundStartMillis))).flatten = [0]
    ∧ getEffectiveRoundEndTime zeroTimeElimRound = none
    ∧ getEffectiveRoundEndTime zeroTimeElimRound ≠ some 0 := by decide

/-! ### Claim theorems (confirmed / amended properties) -/

/-- C6.  The economic modifier equals `2 × (1 − w)` where `w` is the
win rate stored under `"{killer_category} vs {victim_category}"`
(`w = 0.5`, i.e. modifier 1.0, when absent); the categories follow the
thresholds ≤1500 / ≤4000 / ≤7500 / ≤10000 / ≤15000 / >15000; and the
killer's category comes first, so swapping the arguments can change
the value. -/
theorem c6_econ_modifier :
    (∀ (killerLoadout victimLoadout : ℤ) (economicData : EconData),
        calculateEconomicModifier killerLoadout victimLoadout economicData =
          2 * (1 - specEconWinRate economicData killerLoadout victimLoadout))
    ∧ (∀ l : ℤ,
        (l ≤ 1500 → getEconomyCategory l = "Save Round")
        ∧ (1500 < l → l ≤ 4000 → getEconomyCategory l = "Eco Round")
        ∧ (4000 < l → l ≤ 7500 → getEconomyCategory l = "Force Buy")
        ∧ (7500 < l → l ≤ 10000 → getEconomyCategory l = "Anti-Eco")
        ∧ (10000 < l → l ≤ 15000 → getEconomyCategory l = "Full Buy")
        ∧ (15000 < l → getEconomyCategory l = "Operator Buy"))
    ∧ (∃ (economicData : EconData) (killerLoadout victimLoadout : ℤ),
        calculateEconomicModifier killerLoadout victimLoadout economicData ≠
          calculateEconomicModifier victimLoadout killerLoadout
            economicData) := by
  refine ⟨?_, ?_, ?_⟩
  · intro kl vl d
    cases d with
    | none =>
      simp only [calculateEconomicModifier, specEconWinRate]
      norm_num
    | some cats =>
      simp only [calculateEconomicModifier, specEconWinRate]
      cases h : cats.lookup (getEconomyCategory kl ++ " vs " ++
        getEconomyCategory vl) with
      | none =>
        simp [h]
        norm_num
      | some w =>
        simp [h]
  · intro l
    refine ⟨?_, ?_, ?_, ?_, ?_, ?_⟩
    · intro h1
      unfold getEconomyCategory
      rw [if_pos h1]
    · intro h1 h2
      unfold getEconomyCategory
      rw [if_neg (by omega), if_pos h2]
    · intro h1 h2
      unfold getEconomyCategory
      rw [if_neg (by omega), if_neg (by omega), if_pos h2]
    · intro h1 h2
      unfold getEconomyCategory
      rw [if_neg (by omega), if_neg (by omega), if_neg (by omega),
        if_pos h2]
    · intro h1 h2
      unfold getEconomyCategory
      rw [if_neg (by omega), if_neg (by omega), if_neg (by omega),
        if_neg (by omega), if_pos h2]
    · intro h1
      unfold getEconomyCategory
      rw [if_neg (by omega), if_neg (by omega), if_neg (by omega),
        if_neg (by omega), if_neg (by omega)]
  · exact ⟨some [("Save Round vs Eco Round", 0)], 0, 2000, by decide⟩

/-- C6 witness: the category of a 1000-credit loadout is Save Round,
and the modifier formula at a concrete missing matchup is 1. -/
theorem c6_econ_modifier_witness :
    getEconomyCategory 1000 = "Save Round"
    ∧ calculateEconomicModifier 1000 1000 none =
        2 * (1 - specEconWinRate none 1000 1000) :=
  ⟨(c6_econ_modifier.2.1 1000).1 (by norm_num),
   c6_econ_modifier.1 1000 1000 none⟩

/-- C7.  For every alive-state key `"AvB"` (A,B ∈ 0..5), spike flag and
table: the attacker perspective reads the `atk_spike`/`atk_no_spike`
table at the key, the defender perspective returns one minus the
attacker value at the swapped key, a missing key (or empty/missing
table) falls back to 0.5 from either perspective, and the lookup
returns a value (never raises). -/
theorem c7_win_probability_lookup :
    ∀ (a b : ℤ), 0 ≤ a → a ≤ 5 → 0 ≤ b → b ≤ 5 →
    ∀ (spike : Bool) (tbl : WinProbTables),
      getWinProbabilityKillerPerspective (getXvxKey a b) spike tbl true =
        .ok (((if spike then tbl.atkSpike else tbl.atkNoSpike).lookup
          (getXvxKey a b)).getD (1/2))
      ∧ getWinProbabilityKillerPerspective (getXvxKey a b) spike tbl
          false =
        .ok (1 - ((if spike then tbl.atkSpike else tbl.atkNoSpike).lookup
          (getXvxKey b a)).getD (1/2))
      ∧ ((if spike then tbl.atkSpike else tbl.atkNoSpike).lookup
          (getXvxKey a b) = none →
          getWinProbabilityKillerPerspective (getXvxKey a b) spike tbl
            true = .ok (1/2))
      ∧ ((if spike then tbl.atkSpike else tbl.atkNoSpike).lookup
          (getXvxKey b a) = none →
          getWinProbabilityKillerPerspective (getXvxKey a b) spike tbl
            false = .ok (1/2)) := by
  intro a b ha0 ha5 hb0 hb5 spike tbl
  refine ⟨winProb_attacker _ spike tbl,
    winProb_defender a b ha0 ha5 hb0 hb5 spike tbl, ?_, ?_⟩
  · intro h
    rw [winProb_attacker _ spike tbl, h]
    rfl
  · intro h
    rw [winProb_defender a b ha0 ha5 hb0 hb5 spike tbl, h]
    norm_num

/-- C7 witness: concrete instantiation at the key `5v4` with an empty
table — both perspectives fall back to 0.5. -/
theorem c7_win_probability_lookup_witness :
    getWinProbabilityKillerPerspective (getXvxKey 5 4) false emptyTables
      true = .ok (1/2)
    ∧ getWinProbabilityKillerPerspective (getXvxKey 5 4) false
        emptyTables false = .ok (1/2) :=
  ⟨(c7_win_probability_lookup 5 4 (by norm_num) (by norm_num)
      (by norm_num) (by norm_num) false emptyTables).2.2.1 (by decide),
   (c7_win_probability_lookup 5 4 (by norm_num) (by norm_num)
      (by norm_num) (by norm_num) false emptyTables).2.2.2 (by decide)⟩

/-- C9.  A player whose stats are missing or record zero rounds played
gets APR = 0 and ADRa = 0, and ADRa returns a value (no exception). -/
theorem c9_zero_rounds :
    ∀ (player : MatchPlayer) (m : MatchRec)
      (damageData : List (String × ℤ)) (xvxData : Option WinProbTables),
      (player.stats = none ∨
        ∃ s, player.stats = some s ∧ s.roundsPlayed = 0) →
      calculateApr player = 0
      ∧ calculateAdra player m damageData xvxData = .ok 0 := by
  intro player m dmg xvx h
  rcases h with h | ⟨s, hs, hr⟩
  · exact ⟨by simp [calculateApr, h], by simp [calculateAdra, h]⟩
  · exact ⟨by simp [calculateApr, hs, hr], by simp [calculateAdra, hs, hr]⟩

/-- C9 witness: a concrete player with 0 rounds played yields APR 0 and
ADRa `.ok 0`. -/
theorem c9_zero_rounds_witness :
    calculateApr ⟨"Z", "Blue", some ⟨0, 7⟩⟩ = 0
    ∧ calculateAdra ⟨"Z", "Blue", some ⟨0, 7⟩⟩ lateKillMatch [] none =
        .ok 0 :=
  c9_zero_rounds ⟨"Z", "Blue", some ⟨0, 7⟩⟩ lateKillMatch [] none
    (Or.inr ⟨⟨0, 7⟩, rfl, rfl⟩)

/-- Arithmetic consequences of a step's alive-state case split. -/
lemma stepAlive_bounds {st' st : Alive × ℚ}
    (hcase : st'.1 = st.1 ∨
      ∃ t, aliveGet st.1 t > 0 ∧ st'.1 = aliveDec st.1 t) :
    st.1.atk + st.1.dfn - 1 ≤ st'.1.atk + st'.1.dfn
    ∧ st'.1.atk + st'.1.dfn ≤ st.1.atk + st.1.dfn
    ∧ st'.1.atk ≤ st.1.atk ∧ st'.1.dfn ≤ st.1.dfn := by
  rcases hcase with hc | ⟨t, hpos, hdec⟩
  · rw [hc]
    omega
  · rw [hdec]
    have h1 := aliveDec_total st.1 t
    have h2 := (aliveDec_le st.1 t).1
    have h3 := (aliveDec_le st.1 t).2
    omega

/-- The invariant survives a step's alive-state case split. -/
lemma stepAlive_inv {st' st : Alive × ℚ} (hinv : aliveInv st.1)
    (hcase : st'.1 = st.1 ∨
      ∃ t, aliveGet st.1 t > 0 ∧ st'.1 = aliveDec st.1 t) :
    aliveInv st'.1 := by
  rcases hcase with hc | ⟨t, hpos, hdec⟩
  · rw [hc]
    exact hinv
  · rw [hdec]
    exact aliveDec_inv st.1 t hinv hpos

/-- C2 (amended).  Every processed timeline event decrements AT MOST
one side's alive count by one: events whose scoring or decrement is
skipped (unresolvable side, shared side, count already 0) decrement
nothing, so across a round the total number of decrements is at most —
not exactly — the number of lethal events in the timeline.  Stated per
step and for the whole fold, for both engines. -/
theorem c2_decrement_bound :
    (∀ (puuid : String) (players : List MatchPlayer)
      (atkTeam defTeam : String) (spike : Bool) (xvx : WinProbTables)
      (econ : EconData) (r : Round) (st : Alive × ℚ) (e : KillEvent),
      aliveInv st.1 →
      (∃ st', killStep puuid players atkTeam defTeam spike xvx econ r
          st e = .ok st'
        ∧ st.1.atk + st.1.dfn - 1 ≤ st'.1.atk + st'.1.dfn
        ∧ st'.1.atk + st'.1.dfn ≤ st.1.atk + st.1.dfn)
      ∧ (∃ st', deathStep puuid players atkTeam defTeam spike xvx econ r
          st e = .ok st'
        ∧ st.1.atk + st.1.dfn - 1 ≤ st'.1.atk + st'.1.dfn
        ∧ st'.1.atk + st'.1.dfn ≤ st.1.atk + st.1.dfn))
    ∧ (∀ (puuid : String) (players : List MatchPlayer)
      (atkTeam defTeam : String) (spike : Bool) (xvx : WinProbTables)
      (econ : EconData) (r : Round) (events : List KillEvent)
      (st : Alive × ℚ), aliveInv st.1 →
      (∃ st', events.foldlM
          (killStep puuid players atkTeam defTeam spike xvx econ r) st =
          .ok st'
        ∧ st.1.atk + st.1.dfn - events.length ≤ st'.1.atk + st'.1.dfn
        ∧ st'.1.atk + st'.1.dfn ≤ st.1.atk + st.1.dfn)
      ∧ (∃ st', events.foldlM
          (deathStep puuid players atkTeam defTeam spike xvx econ r) st =
          .ok st'
        ∧ st.1.atk + st.1.dfn - events.length ≤ st'.1.atk + st'.1.dfn
        ∧ st'.1.atk + st'.1.dfn ≤ st.1.atk + st.1.dfn)) := by
  constructor
  · intro puuid players atkTeam defTeam spike xvx econ r st e hinv
    constructor
    · obtain ⟨st', h, hcase⟩ := killStep_cases puuid players atkTeam
        defTeam spike xvx econ r st e hinv
      obtain ⟨hb1, hb2, _, _⟩ := stepAlive_bounds hcase
      exact ⟨st', h, hb1, hb2⟩
    · obtain ⟨st', h, hcase, _⟩ := deathStep_cases puuid players atkTeam
        defTeam spike xvx econ r st e hinv
      obtain ⟨hb1, hb2, _, _⟩ := stepAlive_bounds hcase
      exact ⟨st', h, hb1, hb2⟩
  · intro puuid players atkTeam defTeam spike xvx econ r events st hinv
    constructor
    · obtain ⟨st', h, _, _, _, htot⟩ := foldlM_killStep puuid players
        atkTeam defTeam spike xvx econ r events st hinv
      obtain ⟨st2, h2, _, hla, hld, _⟩ := foldlM_killStep puuid players
        atkTeam defTeam spike xvx econ r events st hinv
      rw [h] at h2
      cases h2
      exact ⟨st', h, htot, by omega⟩
    · obtain ⟨st', h, _, hla, hld, htot, _⟩ := foldlM_deathStep puuid
        players atkTeam defTeam spike xvx econ r events st hinv
      exact ⟨st', h, htot, by omega⟩

/-- C2 witness: the step bound instantiated at a concrete state and
event. -/
theorem c2_decrement_bound_witness :
    ∃ st', killStep "P1" friendlyFireMatch.players "Red" "Blue" false
        emptyTables none friendlyFireRound (⟨5, 5⟩, 0)
        ⟨"P1", "P2", 1000, none⟩ = .ok st'
      ∧ (5 : ℤ) + 5 - 1 ≤ st'.1.atk + st'.1.dfn
      ∧ st'.1.atk + st'.1.dfn ≤ (5 : ℤ) + 5 :=
  (c2_decrement_bound.1 "P1" friendlyFireMatch.players "Red" "Blue"
    false emptyTables none friendlyFireRound (⟨5, 5⟩, 0)
    ⟨"P1", "P2", 1000, none⟩ aliveInv_start).1

/-- C8.  The alive counts start at `{'atk': 5, 'def': 5}` (an empty
timeline leaves the replay at exactly that state), are monotonically
non-increasing under every processed event, and never leave `[0, 5]`
(in particular never become negative); every round replay of either
engine succeeds with in-range final counts. -/
theorem c8_alive_invariant :
    (∀ (puuid : String) (players : List MatchPlayer)
      (atkTeam defTeam : String) (spike : Bool) (xvx : WinProbTables)
      (econ : EconData) (r : Round) (st : Alive × ℚ) (e : KillEvent),
      aliveInv st.1 →
      (∃ st', killStep puuid players atkTeam defTeam spike xvx econ r
          st e = .ok st'
        ∧ aliveInv st'.1
        ∧ st'.1.atk ≤ st.1.atk ∧ st'.1.dfn ≤ st.1.dfn)
      ∧ (∃ st', deathStep puuid players atkTeam defTeam spike xvx econ r
          st e = .ok st'
        ∧ aliveInv st'.1
        ∧ st'.1.atk ≤ st.1.atk ∧ st'.1.dfn ≤ st.1.dfn))
    ∧ (∀ (puuid : String) (m : MatchRec) (econ : EconData)
      (xvx : WinProbTables) (rd : Round),
      (∃ st', replayRoundKC puuid m econ xvx rd = .ok st'
        ∧ aliveInv st'.1)
      ∧ (∃ st', replayRoundDC puuid m econ xvx rd = .ok st'
        ∧ aliveInv st'.1))
    ∧ (∀ (puuid : String) (m : MatchRec) (econ : EconData)
      (xvx : WinProbTables) (rd : Round), rd.playerStats = [] →
      replayRoundKC puuid m econ xvx rd = .ok (⟨5, 5⟩, 0)
      ∧ replayRoundDC puuid m econ xvx rd = .ok (⟨5, 5⟩, 0)) := by
  refine ⟨?_, ?_, ?_⟩
  · intro puuid players atkTeam defTeam spike xvx econ r st e hinv
    constructor
    · obtain ⟨st', h, hcase⟩ := killStep_cases puuid players atkTeam
        defTeam spike xvx econ r st e hinv
      obtain ⟨_, _, hb3, hb4⟩ := stepAlive_bounds hcase
      exact ⟨st', h, stepAlive_inv hinv hcase, hb3, hb4⟩
    · obtain ⟨st', h, hcase, _⟩ := deathStep_cases puuid players atkTeam
        defTeam spike xvx econ r st e hinv
      obtain ⟨_, _, hb3, hb4⟩ := stepAlive_bounds hcase
      exact ⟨st', h, stepAlive_inv hinv hcase, hb3, hb4⟩
  · intro puuid m econ xvx rd
    exact ⟨replayRoundKC_inv puuid m econ xvx rd,
      (replayRoundDC_inv puuid m econ xvx rd).imp
        (fun st' h => ⟨h.1, h.2.1⟩)⟩
  · intro puuid m econ xvx rd h
    constructor <;>
      simp [replayRoundKC, replayRoundDC, collectKillsKC, collectKillsDC,
        sortByTime, h] <;> rfl

/-- C8 witness: the step invariant instantiated at the initial state
and a concrete event. -/
theorem c8_alive_invariant_witness :
    ∃ st', killStep "P1" lateKillMatch.players "Red" "Blue" false
        lateKillTables none lateKillRound (⟨5, 5⟩, 0)
        ⟨"P1", "P2", 150000, none⟩ = .ok st'
      ∧ aliveInv st'.1
      ∧ st'.1.atk ≤ (5 : ℤ) ∧ st'.1.dfn ≤ (5 : ℤ) :=
  (c8_alive_invariant.1 "P1" lateKillMatch.players "Red" "Blue" false
    lateKillTables none lateKillRound (⟨5, 5⟩, 0)
    ⟨"P1", "P2", 150000, none⟩ aliveInv_start).1

/-- C1 (amended).  The engines `calculate_kill_contrib` /
`calculate_death_contrib` apply NO time decay: their replay steps never
read the event's time, so the attributed impact equals
`base_impact × economic_modifier` (resp. its negated absolute value)
whatever the event's time; the 0.5 halving for times above 100 000 ms
exists only in adra.py's `_apply_post_round_modifier`. -/
theorem c1_no_decay_in_engines :
    (∀ (puuid : String) (players : List MatchPlayer)
      (atkTeam defTeam : String) (spike : Bool) (xvx : WinProbTables)
      (econ : EconData) (r : Round) (st : Alive × ℚ) (e : KillEvent)
      (t1 t2 : ℤ),
      killStep puuid players atkTeam defTeam spike xvx econ r st
        { e with time := t1 } =
      killStep puuid players atkTeam defTeam spike xvx econ r st
        { e with time := t2 }
      ∧ deathStep puuid players atkTeam defTeam spike xvx econ r st
        { e with time := t1 } =
      deathStep puuid players atkTeam defTeam spike xvx econ r st
        { e with time := t2 })
    ∧ (∀ (impact : ℚ) (t : ℤ),
      (100000 < t → applyPostRoundModifier impact t = impact * (1/2))
      ∧ (t ≤ 100000 → applyPostRoundModifier impact t = impact)) := by
  constructor
  · intro puuid players atkTeam defTeam spike xvx econ r st e t1 t2
    constructor <;> (cases e; rfl)
  · intro impact t
    constructor
    · intro h
      unfold applyPostRoundModifier
      rw [if_pos h]
    · intro h
      unfold applyPostRoundModifier
      rw [if_neg (by omega)]

/-- C1 witness: the adra decay instantiated on both sides of the
100 000 ms threshold. -/
theorem c1_no_decay_in_engines_witness :
    applyPostRoundModifier (2/5) 150000 = (2/5) * (1/2)
    ∧ applyPostRoundModifier (2/5) 50000 = 2/5 :=
  ⟨(c1_no_decay_in_engines.2 (2/5) 150000).1 (by norm_num),
   (c1_no_decay_in_engines.2 (2/5) 50000).2 (by norm_num)⟩

/-- C3 (amended).  The terminal override applies only to the post-event
probability and only when the post-state key contains a `0`; it
additionally requires a truthy `winningTeam` AND a present
`plantRoundTime` AND a `roundEndReason` containing `Elimination`,
`Defuse` or `Detonate` — otherwise the table value stands.  The
winner's side is inferred from the end reason alone (never from the
winning team's identity): `Elimination` → the killer's own side (so the
override is 1.0 for the killer from either perspective), `Defuse` →
the defenders, `Detonate` → the attackers; the killer perspective
receives 1.0 exactly when its side equals the inferred winner side. -/
theorem c3_override_behavior :
    ∀ (a b : ℤ), 0 ≤ a → a ≤ 5 → 0 ≤ b → b ≤ 5 →
    ∀ (isAtk : Bool) (r : Round),
      (¬ (a = 0 ∨ b = 0) →
        adjustWinForOutcome (getXvxKey a b) isAtk r = .ok none)
      ∧ (truthyStr r.winningTeam = false →
        adjustWinForOutcome (getXvxKey a b) isAtk r = .ok none)
      ∧ (r.plantRoundTime = none →
        adjustWinForOutcome (getXvxKey a b) isAtk r = .ok none)
      ∧ ((a = 0 ∨ b = 0) → truthyStr r.winningTeam = true →
         ∀ pt : ℤ, r.plantRoundTime = some pt →
          (strContainsSub "Elimination" (r.roundEndReason.getD "") =
              true →
            adjustWinForOutcome (getXvxKey a b) isAtk r = .ok (some 1))
          ∧ (strContainsSub "Elimination" (r.roundEndReason.getD "") =
              false →
             strContainsSub "Defuse" (r.roundEndReason.getD "") = true →
            adjustWinForOutcome (getXvxKey a b) isAtk r =
              .ok (some (if isAtk then 0 else 1)))
          ∧ (strContainsSub "Elimination" (r.roundEndReason.getD "") =
              false →
             strContainsSub "Defuse" (r.roundEndReason.getD "") =
              false →
             strContainsSub "Detonate" (r.roundEndReason.getD "") =
              true →
            adjustWinForOutcome (getXvxKey a b) isAtk r =
              .ok (some (if isAtk then 1 else 0)))
          ∧ (strContainsSub "Elimination" (r.roundEndReason.getD "") =
              false →
             strContainsSub "Defuse" (r.roundEndReason.getD "") =
              false →
             strContainsSub "Detonate" (r.roundEndReason.getD "") =
              false →
            adjustWinForOutcome (getXvxKey a b) isAtk r = .ok none)) := by
  intro a b ha0 ha5 hb0 hb5 isAtk r
  rw [adjustWinForOutcome_eq a b ha0 ha5 hb0 hb5 isAtk r]
  refine ⟨?_, ?_, ?_, ?_⟩
  · intro h
    simp [h]
  · intro h
    simp [h]
  · intro h
    simp [winnerWasAttacker, h]
  · intro hz ht pt hpt
    refine ⟨?_, ?_, ?_, ?_⟩
    · intro he
      simp [hz, ht, winnerWasAttacker, hpt, he]
    · intro he hd
      simp [hz, ht, winnerWasAttacker, hpt, he, hd]
      cases isAtk <;> simp
    · intro he hd hdet
      simp [hz, ht, winnerWasAttacker, hpt, he, hd, hdet]
    · intro he hd hdet
      simp [hz, ht, winnerWasAttacker, hpt, he, hd, hdet]

/-- C3 witness: the Elimination override at the post-state `1v0` of
`terminalRound`, defender perspective. -/
theorem c3_override_behavior_witness :
    adjustWinForOutcome (getXvxKey 1 0) false terminalRound =
      .ok (some 1) :=
  (((c3_override_behavior 1 0 (by norm_num) (by norm_num) (by norm_num)
      (by norm_num) false terminalRound).2.2.2 (Or.inr rfl) (by decide)
      5000 rfl).1 (by decide))

/-! ### Timeline lemmas (claim C5) -/

/-- The time order on events is total. -/
instance instKillEventLETotal :
    IsTotal KillEvent (fun a b => a.time ≤ b.time) :=
  ⟨fun a b => le_total a.time b.time⟩

/-- The time order on events is transitive. -/
instance instKillEventLETrans :
    IsTrans KillEvent (fun a b => a.time ≤ b.time) :=
  ⟨fun _ _ _ h1 h2 => le_trans h1 h2⟩

/-- Inserting into a list commutes with selecting the events of one
fixed timestamp: the inserted event lands in front of the equal-time
block (the earlier-position element of an equal-time pair stays
first). -/
lemma orderedInsert_filter_time (a : KillEvent) (s : List KillEvent)
    (t : ℤ) :
    (List.orderedInsert (fun x y : KillEvent => x.time ≤ y.time) a
        s).filter (fun e => decide (e.time = t)) =
      if a.time = t then
        a :: s.filter (fun e => decide (e.time = t))
      else s.filter (fun e => decide (e.time = t)) := by
  induction s with
  | nil =>
    by_cases h : a.time = t <;> simp [List.orderedInsert, h]
  | cons b s ih =>
    simp only [List.orderedInsert]
    by_cases hr : a.time ≤ b.time
    · rw [if_pos hr]
      by_cases h : a.time = t <;> simp [List.filter_cons, h]
    · rw [if_neg hr]
      push_neg at hr
      by_cases h : a.time = t
      · have hb : ¬ b.time = t := by omega
        simp [List.filter_cons, h, hb, ih]
      · by_cases hb : b.time = t <;> simp [List.filter_cons, h, hb, ih]

/-- Stability of the timeline sort: for each timestamp, the events at
that timestamp appear in the same order as in the input. -/
lemma sortByTime_stable (l : List KillEvent) (t : ℤ) :
    (sortByTime l).filter (fun e => decide (e.time = t)) =
      l.filter (fun e => decide (e.time = t)) := by
  induction l with
  | nil => rfl
  | cons a l ih =>
    show (List.orderedInsert (fun x y : KillEvent => x.time ≤ y.time) a
      (sortByTime l)).filter (fun e => decide (e.time = t)) = _
    rw [orderedInsert_filter_time]
    by_cases h : a.time = t <;> simp [List.filter_cons, h, ih]

/-- The cutoff-restricted collection (kill variant) is the filter of
the unrestricted one. -/
lemma collectKillsKC_filter (cutoff : Option ℤ)
    (stats : List PlayerStat) :
    collectKillsKC cutoff stats =
      (collectKillsKC none stats).filter
        (fun e => cutoffOk cutoff e.time) := by
  induction stats with
  | nil => rfl
  | cons ps rest ih =>
    simp only [collectKillsKC] at ih ⊢
    simp only [List.map_cons, List.flatten_cons, List.filter_append]
    rw [ih, List.filter_map,
      List.filter_eq_self.mpr (fun a _ => (rfl : cutoffOk none _ = true))]
    rfl

/-- The cutoff-restricted collection (death variant) is the filter of
the unrestricted one. -/
lemma collectKillsDC_filter (cutoff : Option ℤ)
    (stats : List PlayerStat) :
    collectKillsDC cutoff stats =
      (collectKillsDC none stats).filter
        (fun e => cutoffOk cutoff e.time) := by
  induction stats with
  | nil => rfl
  | cons ps rest ih =>
    simp only [collectKillsDC] at ih ⊢
    simp only [List.map_cons, List.flatten_cons, List.filter_append]
    rw [ih, List.filter_map,
      List.filter_eq_self.mpr (fun a _ => (rfl : cutoffOk none _ = true))]
    rfl

/-- C5 (amended).  Cutoff: Defuse → the (optional) defuse timestamp;
Elimination → the maximum kill timestamp when positive, and NO cutoff
when it is ≤ 0 (in particular when the last kill is at time 0);
Detonate → plant + 45 000 when the plant time is present; any other
code → no cutoff.  Timeline: the collected events are exactly the
unrestricted events passing the `time ≤ cutoff` test, and the sort is
an ascending-by-time stable permutation (ties keep record order). -/
theorem c5_cutoff_and_timeline :
    (∀ r : Round,
      (r.roundResultCode = some "Defuse" →
        getEffectiveRoundEndTime r = r.defuseRoundTime)
      ∧ (r.roundResultCode = some "Elimination" →
          (0 < maxKillTime r →
            getEffectiveRoundEndTime r = some (maxKillTime r))
          ∧ (maxKillTime r ≤ 0 → getEffectiveRoundEndTime r = none))
      ∧ (r.roundResultCode = some "Detonate" →
        getEffectiveRoundEndTime r =
          r.plantRoundTime.map (fun p => p + 45000))
      ∧ (r.roundResultCode ≠ some "Defuse" →
         r.roundResultCode ≠ some "Elimination" →
         r.roundResultCode ≠ some "Detonate" →
        getEffectiveRoundEndTime r = none))
    ∧ (∀ (cutoff : Option ℤ) (stats : List PlayerStat),
        collectKillsKC cutoff stats =
          (collectKillsKC none stats).filter
            (fun e => cutoffOk cutoff e.time)
        ∧ collectKillsDC cutoff stats =
          (collectKillsDC none stats).filter
            (fun e => cutoffOk cutoff e.time))
    ∧ (∀ l : List KillEvent,
        List.Perm (sortByTime l) l
        ∧ List.Sorted (fun a b : KillEvent => a.time ≤ b.time)
            (sortByTime l)
        ∧ ∀ t : ℤ,
            (sortByTime l).filter (fun e => decide (e.time = t)) =
              l.filter (fun e => decide (e.time = t))) := by
  refine ⟨?_, ?_, ?_⟩
  · intro r
    refine ⟨?_, ?_, ?_, ?_⟩
    · intro h
      simp [getEffectiveRoundEndTime, h]
    · intro h
      constructor
      · intro h2
        simp [getEffectiveRoundEndTime, h, h2]
      · intro h2
        simp [getEffectiveRoundEndTime, h,
          (show ¬ maxKillTime r > 0 by omega)]
    · intro h
      simp [getEffectiveRoundEndTime, h]
    · intro h1 h2 h3
      simp [getEffectiveRoundEndTime, h1, h2, h3]
  · intro cutoff stats
    exact ⟨collectKillsKC_filter cutoff stats,
      collectKillsDC_filter cutoff stats⟩
  · intro l
    exact ⟨List.perm_insertionSort _ l, List.sorted_insertionSort _ l,
      sortByTime_stable l⟩

/-- C5 witness: the Detonate cutoff at a concrete round with plant
time 1000 is 46 000. -/
theorem c5_cutoff_and_timeline_witness :
    getEffectiveRoundEndTime
      ⟨0, none, some "Detonate", none, some 1000, none, none, []⟩ =
      (some (1000 : ℤ)).map (fun p => p + 45000) :=
  ((c5_cutoff_and_timeline.1
    ⟨0, none, some "Detonate", none, some 1000, none, none, []⟩).2.2.1 rfl)

/-- C10.  The death-contribution component is a sum of terms each
forced to `−abs(base_impact × economic_modifier)`, so for every player,
match and pair of tables it returns a value ≤ 0 (and never raises). -/
theorem c10_death_contrib_nonpositive :
    ∀ (player : MatchPlayer) (m : MatchRec) (econ : EconData)
      (xvx : WinProbTables),
    ∃ v, calculateDeathContrib player m econ xvx = .ok v ∧ v ≤ 0 := by
  intro player m econ xvx
  exact deathRounds_fold player.puuid m econ xvx m.roundResults 0

end OSR
